import Mathlib

/-
Verification of the note autosave and title-derivation pipeline of the
noteApp repository (src/ui/components/Editor.tsx).

JavaScript strings are embedded as `List Char`; `jsTrim` models
`String.prototype.trim`, `splitOnNl` models `split('\n')`, and
`List.take` models `substring(0, n)`.  The React component's behaviour is
embedded as an explicit state machine: `EditorState` carries the hooks'
state (`saveTimeout`, `editableTitle`, `note`, `lastSaved`, ...), events
model the public contract (`onContentChanged`, `onTitleEdited`,
`onActiveNoteChanged`), and a pending `setTimeout` is a `Timer` record
holding the values its JavaScript closure captured.  `run` replays a
timed trace on the single-threaded event loop, firing a due timer before
handling the next event, and records every commit attempt (a `saveNote`
invocation when a timer fires) and every issued upsert payload.
-/

namespace NoteApp

/-- JavaScript strings, embedded as lists of characters. -/
abbrev Str := List Char

/-- Whitespace predicate used by trimming (space, tab, CR, LF). -/
def isWs (c : Char) : Bool := c.isWhitespace

/-- Drop trailing whitespace, as the second half of `String.prototype.trim`. -/
def dropTrailingWs (s : Str) : Str := ((s.reverse).dropWhile isWs).reverse

/-- Model of `String.prototype.trim`: drop leading and trailing whitespace. -/
def jsTrim (s : Str) : Str := dropTrailingWs (s.dropWhile isWs)

/-- Model of `split('\n')`.  On the empty string it yields `[[]]`, exactly as
`"".split('\n')` yields `[""]`. -/
def splitOnNl : Str → List Str
  | [] => [[]]
  | c :: cs =>
    if c = '\n' then [] :: splitOnNl cs
    else
      match splitOnNl cs with
      | l :: ls => (c :: l) :: ls
      | [] => [[c]]

/-- Sentinel title used by the component. -/
def untitled : Str := "Untitled".data

/-- Debounce window of `handleAutoSave` (`Editor.tsx`, 2000 ms). -/
def debounceMs : Nat := 2000

/-- Maximum derived-title length (`trimmed.substring(0, 100)`). -/
def maxTitleLen : Nat := 100

/-- Loop body of `generateTitle` (`Editor.tsx:138-144`): scan the lines in
order and return the first whose trimmed form is non-empty, truncated to
`maxTitleLen` characters. -/
def firstMeaningfulLine : List Str → Option Str
  | [] => none
  | line :: rest =>
    if (jsTrim line).length > 0 then some ((jsTrim line).take maxTitleLen)
    else firstMeaningfulLine rest

/-- Embedding of `generateTitle` (`Editor.tsx:132-147`). -/
def generateTitle (plainText : Str) : Str :=
  if plainText = [] ∨ jsTrim plainText = [] then untitled
  else
    match firstMeaningfulLine (splitOnNl plainText) with
    | some t => t
    | none => untitled

/-- Title derivation as the specification words it (spec §4.2): if the input
is empty or entirely whitespace return the sentinel; otherwise scan the lines
from the first forward for the first one whose trimmed form is non-empty and
return it truncated to the maximum length; if every line is blank return the
sentinel. -/
def specDeriveTitle (plainText : Str) : Str :=
  if plainText.all isWs then untitled
  else
    match (splitOnNl plainText).find? (fun l => !(jsTrim l).isEmpty) with
    | some l => (jsTrim l).take maxTitleLen
    | none => untitled

example : generateTitle "  \n\n  First real line\nSecond line".data = "First real line".data := by
  decide

example : generateTitle "   ".data = untitled := by decide

example : generateTitle [] = untitled := by decide

/-- Upsert payload built by `saveNote` (`Editor.tsx:205-212`). -/
structure NoteData where
  id : Str
  user_id : Str
  title : Str
  content : Str
  plain_text : Str
  updated_at : Nat
deriving DecidableEq

/-- Pending `setTimeout` handle, together with the values its JavaScript
closure captured at scheduling time: the `noteId` prop of the render that
created `handleAutoSave`, and the `(content, plainText)` arguments. -/
structure Timer where
  fireAt : Nat
  noteId : Option Str
  content : Str
  plainText : Str
deriving DecidableEq

/-- State of the `Editor` component: props (`noteId`, `userId`), hook state
(`editableTitle`, `saveTimeout`, `note`, `lastSaved`, `isSaving`) and the
editing surface's current content (`editorHtml` for `editor.getHTML()`,
`editorText` for `editor.getText()`).  `editableTitle` stands for both the
state cell and `editableTitleRef`, which the component keeps in sync so that
`saveNote` always reads the latest title. -/
structure EditorState where
  noteId : Option Str
  userId : Str
  editableTitle : Str
  editorHtml : Str
  editorText : Str
  saveTimeout : Option Timer
  note : Option NoteData
  lastSaved : Option Nat
  isSaving : Bool
deriving DecidableEq

/-- Initial state of a freshly mounted `Editor` component. -/
def initState (noteId : Option Str) (userId : Str) : EditorState :=
  { noteId := noteId
    userId := userId
    editableTitle := untitled
    editorHtml := []
    editorText := []
    saveTimeout := none
    note := none
    lastSaved := none
    isSaving := false }

/-- Embedding of `saveNote` (`Editor.tsx:182-229`).  `capturedNoteId` is the
`noteId` the timer's closure captured; `now` is the time the commit runs;
`res` is the storage collaborator's answer to the upsert.  Returns the
updated state and the upsert payload that was issued (`none` when a guard
aborted before any write).  The `try`/`catch` of the source is embedded by
totality: the error branch only logs, so the function always returns a
state and never propagates the storage failure. -/
def saveNote (s : EditorState) (capturedNoteId : Option Str)
    (content plainText : Str) (now : Nat)
    (res : Except Unit NoteData) : EditorState × Option NoteData :=
  if capturedNoteId.getD [] = [] then (s, none)
  else if jsTrim plainText = [] then (s, none)
  else
    let currentTitle := s.editableTitle
    let finalTitle :=
      if currentTitle = [] ∨ jsTrim currentTitle = [] ∨ currentTitle = untitled then
        generateTitle plainText
      else currentTitle
    let noteData : NoteData :=
      { id := capturedNoteId.getD []
        user_id := s.userId
        title := finalTitle
        content := content
        plain_text := plainText
        updated_at := now }
    match res with
    | Except.ok row =>
      ({ s with note := some row, lastSaved := some now, isSaving := false }, some noteData)
    | Except.error _ => ({ s with isSaving := false }, some noteData)

/-- Embedding of `handleAutoSave` (`Editor.tsx:158-171`): clear any pending
timer and schedule a new one `debounceMs` later, capturing the current
`noteId` and the `(content, plainText)` arguments in its closure. -/
def handleAutoSave (s : EditorState) (now : Nat) (content plainText : Str) : EditorState :=
  { s with
      saveTimeout := some
        { fireAt := now + debounceMs
          noteId := s.noteId
          content := content
          plainText := plainText } }

/-- Events of the controller's public contract (spec §4.1).
`onContentChanged` is the editor's `onUpdate` callback;
`onTitleEdited` is an edit of the title input followed by blur
(`Editor.tsx:376-392`); `onActiveNoteChanged` is a change of the `noteId`
prop, with `loaded` the row the load effect fetched (`none` for a
failed load). -/
inductive Event where
  | onContentChanged (html text : Str)
  | onTitleEdited (title : Str)
  | onActiveNoteChanged (newId : Option Str) (loaded : Option NoteData)
deriving DecidableEq

/-- Event handling, translated from `Editor.tsx`: `onUpdate` (lines
108-115) feeds the new content to `handleAutoSave`; the title input's
`onChange`/`onBlur` (lines 376-392) update the title and call
`handleAutoSave` with the editing surface's current content; the load
effect (lines 234-269) sets the new note's data without touching
`saveTimeout`. -/
def handleEvent (s : EditorState) (now : Nat) : Event → EditorState
  | Event.onContentChanged html text =>
    handleAutoSave { s with editorHtml := html, editorText := text } now html text
  | Event.onTitleEdited title =>
    let s1 := { s with editableTitle := title }
    handleAutoSave s1 now s1.editorHtml s1.editorText
  | Event.onActiveNoteChanged newId loaded =>
    let s1 := { s with noteId := newId }
    if newId.getD [] = [] then
      { s1 with editorHtml := [], editorText := [], note := none, editableTitle := untitled }
    else
      match loaded with
      | none => s1
      | some data =>
        { s1 with
            note := some data
            editableTitle := if data.title = [] then untitled else data.title
            editorHtml := data.content
            editorText := data.plain_text }

/-- Result of replaying part of a trace: the final state, the commit
attempts (timers that fired, i.e. `saveNote` invocations), and the upsert
payloads actually issued to storage. -/
structure RunResult where
  state : EditorState
  attempts : List Timer
  upserts : List NoteData
deriving DecidableEq

/-- Fire the pending timer if it is due at time `now`: the event loop runs
the `setTimeout` callback, which calls `saveNote` with the closure-captured
values.  `env` gives the storage collaborator's answer to an upsert issued
at a given time. -/
def fireDue (env : Nat → Except Unit NoteData) (s : EditorState) (now : Nat) : RunResult :=
  match s.saveTimeout with
  | none => { state := s, attempts := [], upserts := [] }
  | some tm =>
    if tm.fireAt ≤ now then
      let p := saveNote { s with saveTimeout := none } tm.noteId tm.content tm.plainText
        tm.fireAt (env tm.fireAt)
      { state := p.1, attempts := [tm], upserts := p.2.toList }
    else { state := s, attempts := [], upserts := [] }

/-- Process one timed event: first fire the timer if its deadline has
passed, then handle the event. -/
def step (env : Nat → Except Unit NoteData) (s : EditorState) (te : Nat × Event) : RunResult :=
  let r := fireDue env s te.1
  { state := handleEvent r.state te.1 te.2, attempts := r.attempts, upserts := r.upserts }

/-- Replay a timed trace, then let time advance to `endTime` so that a
still-pending timer may fire. -/
def run (env : Nat → Except Unit NoteData) (s : EditorState) :
    List (Nat × Event) → Nat → RunResult
  | [], endTime => fireDue env s endTime
  | te :: rest, endTime =>
    let r1 := step env s te
    let r2 := run env r1.state rest endTime
    { state := r2.state, attempts := r1.attempts ++ r2.attempts,
      upserts := r1.upserts ++ r2.upserts }

/-- Storage collaborator that fails every upsert. -/
def envFail : Nat → Except Unit NoteData := fun _ => Except.error ()

/-- Storage collaborator that echoes a fixed row for every upsert. -/
def envOk (row : NoteData) : Nat → Except Unit NoteData := fun _ => Except.ok row

/-- Dropping the elements a predicate selects leaves the "all elements
satisfy it" property unchanged. -/
theorem all_dropWhile_iff (p : Char → Bool) (s : Str) :
    (∀ c ∈ s.dropWhile p, p c = true) ↔ ∀ c ∈ s, p c = true := by
  induction s with
  | nil => simp
  | cons c cs ih =>
    by_cases h : p c = true
    · simp [List.dropWhile_cons, h, ih]
    · simp [List.dropWhile_cons, h]

/-- The trimmed form of a string is empty exactly when the string is empty
or entirely whitespace. -/
theorem jsTrim_eq_nil_iff (s : Str) : jsTrim s = [] ↔ ∀ c ∈ s, isWs c = true := by
  unfold jsTrim dropTrailingWs
  rw [List.reverse_eq_nil_iff, List.dropWhile_eq_nil_iff]
  simp only [List.mem_reverse]
  exact all_dropWhile_iff isWs s

/-- The head surviving `dropWhile` falsifies the predicate. -/
theorem dropWhile_head_false {p : Char → Bool} :
    ∀ {s : Str} {c : Char} {r : Str}, s.dropWhile p = c :: r → p c = false := by
  intro s
  induction s with
  | nil => intro c r h; simp at h
  | cons a as ih =>
    intro c r h
    by_cases ha : p a = true
    · rw [List.dropWhile_cons, if_pos ha] at h
      exact ih h
    · rw [List.dropWhile_cons, if_neg ha] at h
      cases h
      simpa using ha

/-- Trailing-whitespace removal keeps a non-whitespace head in place. -/
theorem dropTrailingWs_cons {c : Char} (t : Str) (hc : isWs c = false) :
    dropTrailingWs (c :: t) = c :: dropTrailingWs t := by
  unfold dropTrailingWs
  rw [show (c :: t).reverse = t.reverse ++ [c] from by simp, List.dropWhile_append]
  by_cases h : (t.reverse.dropWhile isWs).isEmpty = true
  · rw [if_pos h]
    rw [List.isEmpty_iff] at h
    rw [h]
    simp [List.dropWhile_cons, hc]
  · rw [if_neg h]
    simp

/-- Auxiliary computation: trailing-trim of the empty string. -/
theorem dropTrailingWs_nil : dropTrailingWs [] = [] := rfl

/-- A non-empty trimmed string starts with a non-whitespace character. -/
theorem jsTrim_head (s : Str) (h : jsTrim s ≠ []) :
    ∃ c r, jsTrim s = c :: r ∧ isWs c = false := by
  unfold jsTrim at *
  cases hd : s.dropWhile isWs with
  | nil =>
    rw [hd, dropTrailingWs_nil] at h
    exact absurd rfl h
  | cons c r =>
    have hc : isWs c = false := dropWhile_head_false hd
    rw [dropTrailingWs_cons r hc]
    exact ⟨c, dropTrailingWs r, rfl, hc⟩

/-- A string beginning with a non-whitespace character does not trim to
the empty string. -/
theorem jsTrim_cons_ne_nil {c : Char} (t : Str) (hc : isWs c = false) :
    jsTrim (c :: t) ≠ [] := by
  intro h
  rw [jsTrim_eq_nil_iff] at h
  have hmem := h c (by simp)
  rw [hc] at hmem
  exact Bool.false_ne_true hmem

/-- Truncating a non-blank trimmed string to a positive length leaves it
non-blank. -/
theorem jsTrim_take_ne_nil (s : Str) (h : jsTrim s ≠ []) {n : Nat} (hn : 0 < n) :
    jsTrim ((jsTrim s).take n) ≠ [] := by
  obtain ⟨c, r, heq, hc⟩ := jsTrim_head s h
  rw [heq, List.take_cons hn]
  exact jsTrim_cons_ne_nil _ hc

/-- Every title returned by the line scan is the truncated trim of some
non-blank line. -/
theorem firstMeaningfulLine_spec :
    ∀ (ls : List Str) (t : Str), firstMeaningfulLine ls = some t →
      ∃ l, jsTrim l ≠ [] ∧ t = (jsTrim l).take maxTitleLen := by
  intro ls
  induction ls with
  | nil => intro t h; simp [firstMeaningfulLine] at h
  | cons line rest ih =>
    intro t h
    by_cases hl : (jsTrim line).length > 0
    · rw [firstMeaningfulLine, if_pos hl] at h
      cases h
      exact ⟨line, fun he => by simp [he] at hl, rfl⟩
    · rw [firstMeaningfulLine, if_neg hl] at h
      exact ih t h

/-- The scan for the first meaningful line agrees with `find?` over the
"trimmed form non-empty" predicate followed by trim-and-truncate. -/
theorem firstMeaningfulLine_eq_find (ls : List Str) :
    firstMeaningfulLine ls =
      (ls.find? (fun l => !(jsTrim l).isEmpty)).map (fun l => (jsTrim l).take maxTitleLen) := by
  induction ls with
  | nil => rfl
  | cons line rest ih =>
    by_cases hl : jsTrim line = []
    · simp [firstMeaningfulLine, List.find?_cons, hl, ih]
    · have hlen : (jsTrim line).length > 0 := List.length_pos.mpr hl
      have hne : ((jsTrim line).isEmpty : Bool) = false := by
        cases h' : jsTrim line with
        | nil => exact absurd h' hl
        | cons a as => rfl
      simp [firstMeaningfulLine, List.find?_cons, hlen, hne]

/-- The derived title of a non-blank text is itself non-blank. -/
theorem generateTitle_ne_blank (p : Str) (hp : jsTrim p ≠ []) :
    jsTrim (generateTitle p) ≠ [] := by
  unfold generateTitle
  have h1 : ¬(p = [] ∨ jsTrim p = []) := by
    rintro (rfl | he)
    · exact hp rfl
    · exact hp he
  rw [if_neg h1]
  cases hfm : firstMeaningfulLine (splitOnNl p) with
  | none => decide
  | some t =>
    obtain ⟨l, hl, ht⟩ := firstMeaningfulLine_spec _ _ hfm
    rw [ht]
    exact jsTrim_take_ne_nil l hl (by decide)

/-- A captured note id is falsy exactly when it is null or the empty
string. -/
theorem cap_falsy_iff (cap : Option Str) : cap.getD [] = [] ↔ cap = none ∨ cap = some [] := by
  cases cap <;> simp

/-- Guard inversion: a falsy note id aborts `saveNote` without any write. -/
theorem saveNote_no_note_abort (s : EditorState) (cap : Option Str) (c p : Str) (now : Nat)
    (res : Except Unit NoteData) (h : cap.getD [] = []) :
    saveNote s cap c p now res = (s, none) := by
  unfold saveNote
  rw [if_pos h]

/-- Guard inversion: blank pending plain text aborts `saveNote` without any
write. -/
theorem saveNote_blank_abort (s : EditorState) (cap : Option Str) (c p : Str) (now : Nat)
    (res : Except Unit NoteData) (h : jsTrim p = []) :
    saveNote s cap c p now res = (s, none) := by
  unfold saveNote
  by_cases h1 : cap.getD [] = []
  · rw [if_pos h1]
  · rw [if_neg h1, if_pos h]

/-- When both guards pass, `saveNote` issues exactly the payload built at
`Editor.tsx:205-212`, whatever the storage outcome. -/
theorem saveNote_upsert_eq (s : EditorState) (cap : Option Str) (c p : Str) (now : Nat)
    (res : Except Unit NoteData) (h1 : cap.getD [] ≠ []) (h2 : jsTrim p ≠ []) :
    (saveNote s cap c p now res).2 =
      some { id := cap.getD []
             user_id := s.userId
             title :=
               if s.editableTitle = [] ∨ jsTrim s.editableTitle = [] ∨ s.editableTitle = untitled
               then generateTitle p else s.editableTitle
             content := c
             plain_text := p
             updated_at := now } := by
  unfold saveNote
  rw [if_neg h1, if_neg h2]
  cases res <;> rfl

/-- Inversion of a successful issue: the guards passed and the payload is
determined. -/
theorem saveNote_issued (s : EditorState) (cap : Option Str) (c p : Str) (now : Nat)
    (res : Except Unit NoteData) (nd : NoteData)
    (h : (saveNote s cap c p now res).2 = some nd) :
    cap.getD [] ≠ [] ∧ jsTrim p ≠ [] ∧
    nd = { id := cap.getD []
           user_id := s.userId
           title :=
             if s.editableTitle = [] ∨ jsTrim s.editableTitle = [] ∨ s.editableTitle = untitled
             then generateTitle p else s.editableTitle
           content := c
           plain_text := p
           updated_at := now } := by
  by_cases h1 : cap.getD [] = []
  · rw [saveNote_no_note_abort s cap c p now res h1] at h
    cases h
  · by_cases h2 : jsTrim p = []
    · rw [saveNote_blank_abort s cap c p now res h2] at h
      cases h
    · rw [saveNote_upsert_eq s cap c p now res h1 h2] at h
      cases h
      exact ⟨h1, h2, rfl⟩

/-- C4: title derivation contract — `generateTitle` agrees everywhere with
the derivation the specification describes: the sentinel "Untitled" on an
empty or entirely-whitespace input, otherwise the first line (scanning
forward through the newline-split lines) whose trimmed form is non-empty,
trimmed and truncated to the fixed maximum of 100 characters, and the
sentinel again if every line is blank. -/
theorem title_derivation_contract : ∀ p : Str, generateTitle p = specDeriveTitle p := by
  intro p
  unfold generateTitle specDeriveTitle
  by_cases hws : ∀ c ∈ p, isWs c = true
  · rw [if_pos (Or.inr ((jsTrim_eq_nil_iff p).mpr hws)), if_pos (List.all_eq_true.mpr hws)]
  · have h2 : ¬(p.all isWs = true) := fun h => hws (List.all_eq_true.mp h)
    have h1 : ¬(p = [] ∨ jsTrim p = []) := by
      rintro (rfl | he)
      · exact hws (by intro c hc; simp at hc)
      · exact hws ((jsTrim_eq_nil_iff p).mp he)
    rw [if_neg h1, if_neg h2, firstMeaningfulLine_eq_find]
    cases (splitOnNl p).find? (fun l => !(jsTrim l).isEmpty) <;> rfl

/-- C1: content purity — every upsert `saveNote` issues carries the
captured `content` and `plainText` verbatim even while title derivation
runs on the plain text, and the debounce path stores the event's payload
verbatim in the scheduled timer. -/
theorem content_purity :
    (∀ (s : EditorState) (cap : Option Str) (c p : Str) (now : Nat)
        (res : Except Unit NoteData) (nd : NoteData),
      (saveNote s cap c p now res).2 = some nd → nd.content = c ∧ nd.plain_text = p) ∧
    (∀ (s : EditorState) (now : Nat) (c p : Str),
      (handleEvent s now (Event.onContentChanged c p)).saveTimeout =
        some { fireAt := now + debounceMs, noteId := s.noteId, content := c, plainText := p }) := by
  constructor
  · intro s cap c p now res nd h
    obtain ⟨-, -, rfl⟩ := saveNote_issued s cap c p now res nd h
    exact ⟨rfl, rfl⟩
  · intro s now c p
    rfl

/-- C3: commit gating — a commit attempt issues no upsert exactly when the
captured note id is null or empty (no note selected) or the pending plain
text trims to the empty string; in particular `onContentChanged("", "")`
followed by the debounce window issues zero upserts. -/
theorem commit_gating :
    (∀ (s : EditorState) (cap : Option Str) (c p : Str) (now : Nat)
        (res : Except Unit NoteData),
      (saveNote s cap c p now res).2 = none ↔
        (cap = none ∨ cap = some [] ∨ jsTrim p = [])) ∧
    (∀ (env : Nat → Except Unit NoteData) (s : EditorState) (t : Nat),
      s.saveTimeout = none →
      (run env s [(t, Event.onContentChanged [] [])] (t + debounceMs)).upserts = []) := by
  constructor
  · intro s cap c p now res
    constructor
    · intro h
      by_cases h1 : cap.getD [] = []
      · rcases (cap_falsy_iff cap).mp h1 with h' | h'
        · exact Or.inl h'
        · exact Or.inr (Or.inl h')
      · by_cases h2 : jsTrim p = []
        · exact Or.inr (Or.inr h2)
        · rw [saveNote_upsert_eq s cap c p now res h1 h2] at h
          cases h
    · intro h
      rcases h with h | h | h
      · rw [saveNote_no_note_abort s cap c p now res (by rw [h]; rfl)]
      · rw [saveNote_no_note_abort s cap c p now res (by rw [h]; rfl)]
      · rw [saveNote_blank_abort s cap c p now res h]
  · intro env s t hT
    show (run env s ((t, Event.onContentChanged [] []) :: []) (t + debounceMs)).upserts = []
    rw [run]
    rw [run]
    rw [show step env s (t, Event.onContentChanged [] []) =
        { state := handleEvent s t (Event.onContentChanged [] [])
          attempts := []
          upserts := [] } from by
      unfold step
      rw [show fireDue env s t = { state := s, attempts := [], upserts := [] } from by
        unfold fireDue
        rw [hT]]]
    dsimp only
    unfold fireDue
    have hS : (handleEvent s t (Event.onContentChanged [] [])).saveTimeout =
        some { fireAt := t + debounceMs, noteId := s.noteId, content := [], plainText := [] } :=
      rfl
    rw [hS]
    dsimp only
    rw [if_pos (le_refl (t + debounceMs))]
    rw [saveNote_blank_abort _ _ _ ([] : Str) _ _ rfl]
    rfl

/-- C5 counterexample: an explicit title of a single space is non-empty and
differs from the sentinel, so the claim says it is persisted as-is; the
code instead treats it as blank and persists the derived title "Hello". -/
theorem title_precedence_cex :
    (' ' :: [] : Str) ≠ [] ∧ (' ' :: [] : Str) ≠ untitled ∧
    (saveNote { initState (some ('a' :: [])) ('u' :: []) with editableTitle := ' ' :: [] }
        (some ('a' :: [])) "<p>Hello</p>".data "Hello".data 7 (Except.error ())).2 =
      some { id := 'a' :: []
             user_id := 'u' :: []
             title := "Hello".data
             content := "<p>Hello</p>".data
             plain_text := "Hello".data
             updated_at := 7 } := by
  decide

/-- C5 (amended): explicit title precedence — for every issued upsert, if
the explicit title is empty, whitespace-only, or the sentinel "Untitled",
the persisted title is derived from the plain text; otherwise the persisted
title is the explicit title verbatim and derivation is not consulted. -/
theorem title_precedence (s : EditorState) (cap : Option Str) (c p : Str) (now : Nat)
    (res : Except Unit NoteData) (nd : NoteData)
    (h : (saveNote s cap c p now res).2 = some nd) :
    (jsTrim s.editableTitle = [] ∨ s.editableTitle = untitled → nd.title = generateTitle p) ∧
    (jsTrim s.editableTitle ≠ [] ∧ s.editableTitle ≠ untitled → nd.title = s.editableTitle) := by
  obtain ⟨-, -, rfl⟩ := saveNote_issued s cap c p now res nd h
  constructor
  · intro hcond
    have : s.editableTitle = [] ∨ jsTrim s.editableTitle = [] ∨ s.editableTitle = untitled := by
      rcases hcond with h' | h'
      · exact Or.inr (Or.inl h')
      · exact Or.inr (Or.inr h')
    simp only [if_pos this]
  · rintro ⟨ha, hb⟩
    have : ¬(s.editableTitle = [] ∨ jsTrim s.editableTitle = [] ∨ s.editableTitle = untitled) := by
      rintro (he | he | he)
      · exact ha (by rw [he]; rfl)
      · exact ha he
      · exact hb he
    simp only [if_neg this]

/-- Equation: with no pending timer, `fireDue` changes nothing. -/
theorem fireDue_none (env : Nat → Except Unit NoteData) (s : EditorState) (t : Nat)
    (h : s.saveTimeout = none) :
    fireDue env s t = { state := s, attempts := [], upserts := [] } := by
  unfold fireDue
  rw [h]

/-- Equation: a pending timer whose deadline has not passed does not fire. -/
theorem fireDue_not_due (env : Nat → Except Unit NoteData) (s : EditorState) (t : Nat)
    (tm : Timer) (h : s.saveTimeout = some tm) (hnd : ¬tm.fireAt ≤ t) :
    fireDue env s t = { state := s, attempts := [], upserts := [] } := by
  unfold fireDue
  rw [h]
  dsimp only
  rw [if_neg hnd]

/-- Equation: a due timer fires, consuming the timer slot and running
`saveNote` with the closure-captured values at its deadline. -/
theorem fireDue_due (env : Nat → Except Unit NoteData) (s : EditorState) (t : Nat)
    (tm : Timer) (h : s.saveTimeout = some tm) (hd : tm.fireAt ≤ t) :
    fireDue env s t =
      { state := (saveNote { s with saveTimeout := none } tm.noteId tm.content tm.plainText
          tm.fireAt (env tm.fireAt)).1
        attempts := [tm]
        upserts := (saveNote { s with saveTimeout := none } tm.noteId tm.content tm.plainText
          tm.fireAt (env tm.fireAt)).2.toList } := by
  unfold fireDue
  rw [h]
  dsimp only
  rw [if_pos hd]

/-- Equation: replaying a single timed event then letting time pass. -/
theorem run_singleton (env : Nat → Except Unit NoteData) (s : EditorState) (te : Nat × Event)
    (endTime : Nat) :
    run env s [te] endTime =
      { state := (fireDue env (handleEvent (fireDue env s te.1).state te.1 te.2) endTime).state
        attempts := (fireDue env s te.1).attempts ++
          (fireDue env (handleEvent (fireDue env s te.1).state te.1 te.2) endTime).attempts
        upserts := (fireDue env s te.1).upserts ++
          (fireDue env (handleEvent (fireDue env s te.1).state te.1 te.2) endTime).upserts } :=
  rfl

/-- The `saveNote` procedure never reinstalls a timer. -/
theorem saveNote_timeout (s : EditorState) (cap : Option Str) (c p : Str) (now : Nat)
    (res : Except Unit NoteData) :
    (saveNote s cap c p now res).1.saveTimeout = s.saveTimeout := by
  unfold saveNote
  by_cases h1 : cap.getD [] = []
  · rw [if_pos h1]
  · rw [if_neg h1]
    by_cases h2 : jsTrim p = []
    · rw [if_pos h2]
    · rw [if_neg h2]
      cases res <;> rfl

/-- The note-switch handler leaves the pending-timer slot untouched: the
load effect of `Editor.tsx:234-269` never clears `saveTimeout`. -/
theorem handleEvent_noteSwitch_timeout (s : EditorState) (now : Nat) (newId : Option Str)
    (loaded : Option NoteData) :
    (handleEvent s now (Event.onActiveNoteChanged newId loaded)).saveTimeout = s.saveTimeout := by
  dsimp only [handleEvent]
  by_cases h : newId.getD [] = []
  · rw [if_pos h]
  · rw [if_neg h]
    cases loaded <;> rfl

/-- After `fireDue` the timer slot is empty, or nothing happened at all. -/
theorem fireDue_timeout_cases (env : Nat → Except Unit NoteData) (s : EditorState) (t : Nat) :
    (fireDue env s t).state.saveTimeout = none ∨
      fireDue env s t = { state := s, attempts := [], upserts := [] } := by
  cases h : s.saveTimeout with
  | none => exact Or.inr (fireDue_none env s t h)
  | some tm =>
    by_cases hd : tm.fireAt ≤ t
    · refine Or.inl ?_
      rw [fireDue_due env s t tm h hd]
      exact saveNote_timeout _ _ _ _ _ _
    · exact Or.inr (fireDue_not_due env s t tm h hd)

/-- Every upsert that `fireDue` issues is keyed by the note id the firing
timer's closure captured. -/
theorem fireDue_upsert_id (env : Nat → Except Unit NoteData) (s : EditorState) (t : Nat)
    (tm : Timer) (a : Str) (hT : s.saveTimeout = some tm) (hcap : tm.noteId = some a) :
    ∀ nd ∈ (fireDue env s t).upserts, nd.id = a := by
  intro nd hnd
  by_cases hd : tm.fireAt ≤ t
  · rw [fireDue_due env s t tm hT hd] at hnd
    dsimp only at hnd
    cases hp : (saveNote { s with saveTimeout := none } tm.noteId tm.content tm.plainText
        tm.fireAt (env tm.fireAt)).2 with
    | none => rw [hp] at hnd; cases hnd
    | some nd' =>
      rw [hp] at hnd
      have heq : nd = nd' := by
        cases hnd with
        | head => rfl
        | tail _ h' => cases h'
      subst heq
      obtain ⟨-, -, rfl⟩ := saveNote_issued _ _ _ _ _ _ _ hp
      rw [hcap]
      rfl
  · rw [fireDue_not_due env s t tm hT hd] at hnd
    cases hnd

/-- C10: blank titles never reach storage — every upsert the autosave path
issues carries a title whose trimmed form is non-empty, because the
empty-content guard makes the derived title non-blank and the explicit
branch only keeps a non-blank title. -/
theorem upsert_title_nonblank (s : EditorState) (cap : Option Str) (c p : Str) (now : Nat)
    (res : Except Unit NoteData) (nd : NoteData)
    (h : (saveNote s cap c p now res).2 = some nd) :
    jsTrim nd.title ≠ [] := by
  obtain ⟨-, h2, rfl⟩ := saveNote_issued s cap c p now res nd h
  by_cases hcond : s.editableTitle = [] ∨ jsTrim s.editableTitle = [] ∨ s.editableTitle = untitled
  · simp only [if_pos hcond]
    exact generateTitle_ne_blank p h2
  · simp only [if_neg hcond]
    intro he
    exact hcond (Or.inr (Or.inl he))

/-- Example timer pending for note "a", as scheduled by `handleAutoSave`
at time 0. -/
def exTimer : Timer :=
  { fireAt := debounceMs
    noteId := some ('a' :: [])
    content := "<p>Hi</p>".data
    plainText := "Hi".data }

/-- Example component state with `exTimer` pending. -/
def exPendingState : EditorState :=
  { initState (some ('a' :: [])) ('u' :: []) with saveTimeout := some exTimer }

/-- C7 counterexample: with `exTimer` pending for note "a",
`onActiveNoteChanged` to note "b" at t = 1000 — before the timer's
deadline at t = 2000 — does not cancel it: the superseded timer still
executes its commit attempt after the switch, so the claimed cancellation
does not happen. -/
theorem note_switch_cancellation_cex :
    (run envFail exPendingState
        [(1000, Event.onActiveNoteChanged (some ('b' :: [])) none)] 3000).attempts =
      [exTimer] := by
  decide

/-- C7 (amended): `onActiveNoteChanged` does not cancel the outstanding
timer — a timer pending at the switch still fires at its original deadline
with its originally captured payload and note id. -/
theorem note_switch_no_cancel (env : Nat → Except Unit NoteData) (s : EditorState)
    (tm : Timer) (newId : Option Str) (loaded : Option NoteData) (t endTime : Nat)
    (hT : s.saveTimeout = some tm) (hlate : t < tm.fireAt) (hend : tm.fireAt ≤ endTime) :
    (run env s [(t, Event.onActiveNoteChanged newId loaded)] endTime).attempts = [tm] := by
  rw [run_singleton]
  rw [fireDue_not_due env s t tm hT (Nat.not_le_of_lt hlate)]
  dsimp only
  have hT2 : (handleEvent s t (Event.onActiveNoteChanged newId loaded)).saveTimeout = some tm := by
    rw [handleEvent_noteSwitch_timeout, hT]
  rw [fireDue_due env _ endTime tm hT2 hend]
  rfl

/-- C8: no cross-note commit — with a timer pending whose closure captured
note id A, switching the active note to a different B and letting any
amount of time pass only ever issues upserts keyed by A; no commit carrying
the pending payload is issued against B. -/
theorem no_cross_note_commit (env : Nat → Except Unit NoteData) (s : EditorState)
    (tm : Timer) (a b : Str) (t endTime : Nat) (loaded : Option NoteData)
    (hT : s.saveTimeout = some tm) (hcap : tm.noteId = some a) (hab : b ≠ a) :
    ∀ nd ∈ (run env s [(t, Event.onActiveNoteChanged (some b) loaded)] endTime).upserts,
      nd.id = a ∧ nd.id ≠ b := by
  have key : ∀ nd ∈ (run env s [(t, Event.onActiveNoteChanged (some b) loaded)] endTime).upserts,
      nd.id = a := by
    intro nd hnd
    rw [run_singleton] at hnd
    dsimp only at hnd
    rcases List.mem_append.mp hnd with hnd1 | hnd2
    · exact fireDue_upsert_id env s t tm a hT hcap nd hnd1
    · rcases fireDue_timeout_cases env s t with hcase | hcase
      · have : (handleEvent (fireDue env s t).state t
            (Event.onActiveNoteChanged (some b) loaded)).saveTimeout = none := by
          rw [handleEvent_noteSwitch_timeout, hcase]
        rw [fireDue_none env _ endTime this] at hnd2
        cases hnd2
      · rw [hcase] at hnd2
        dsimp only at hnd2
        have : (handleEvent s t
            (Event.onActiveNoteChanged (some b) loaded)).saveTimeout = some tm := by
          rw [handleEvent_noteSwitch_timeout, hT]
        exact fireDue_upsert_id env _ endTime tm a this hcap nd hnd2
  intro nd hnd
  refine ⟨key nd hnd, ?_⟩
  rw [key nd hnd]
  exact fun he => hab he.symm

/-- C9: failure atomicity — when a due timer fires and the storage upsert
fails, the last-saved status and the last-known-persisted row keep their
previous values, the timer slot ends empty (nothing is retried or
re-scheduled), and the embedded `try`/`catch` returns a state normally, so
the storage error never escapes the commit boundary. -/
theorem failure_atomicity (env : Nat → Except Unit NoteData) (s : EditorState) (t : Nat)
    (tm : Timer) (hT : s.saveTimeout = some tm) (hdue : tm.fireAt ≤ t)
    (herr : env tm.fireAt = Except.error ()) :
    (fireDue env s t).state.lastSaved = s.lastSaved ∧
    (fireDue env s t).state.note = s.note ∧
    (fireDue env s t).state.saveTimeout = none ∧
    (fireDue env s t).attempts = [tm] := by
  rw [fireDue_due env s t tm hT hdue, herr]
  refine ⟨?_, ?_, ?_, rfl⟩ <;>
  · dsimp only
    unfold saveNote
    by_cases h1 : tm.noteId.getD [] = []
    · rw [if_pos h1]
    · rw [if_neg h1]
      by_cases h2 : jsTrim tm.plainText = []
      · rw [if_pos h2]
      · rw [if_neg h2]

/-- Timing constraint of a burst: each event is no earlier than the
previous one and strictly less than the debounce window after it. -/
def chainOk : Nat → List (Nat × Str × Str) → Prop
  | _, [] => True
  | prev, e :: rest => prev ≤ e.1 ∧ e.1 < prev + debounceMs ∧ chainOk e.1 rest

/-- A burst of content-change events as a timed trace. -/
def burst (evs : List (Nat × Str × Str)) : List (Nat × Event) :=
  evs.map (fun e => (e.1, Event.onContentChanged e.2.1 e.2.2))

/-- Replaying a burst over a state that already holds the timer of the
burst's previous event: no timer matures inside the burst, each event
supersedes the pending timer, and at the end exactly the last event's timer
fires. -/
theorem burst_run (env : Nat → Except Unit NoteData) (endTime : Nat) (nid : Option Str) :
    ∀ (rest : List (Nat × Str × Str)) (s : EditorState) (prevT : Nat) (h0 x0 : Str),
      s.saveTimeout = some { fireAt := prevT + debounceMs
                             noteId := nid
                             content := h0
                             plainText := x0 } →
      s.noteId = nid →
      chainOk prevT rest →
      (rest.getLastD (prevT, h0, x0)).1 + debounceMs ≤ endTime →
      (run env s (burst rest) endTime).attempts =
        [{ fireAt := (rest.getLastD (prevT, h0, x0)).1 + debounceMs
           noteId := nid
           content := (rest.getLastD (prevT, h0, x0)).2.1
           plainText := (rest.getLastD (prevT, h0, x0)).2.2 }] := by
  intro rest
  induction rest with
  | nil =>
    intro s prevT h0 x0 hst hnid hch hend
    show (fireDue env s endTime).attempts = _
    rw [fireDue_due env s endTime _ hst hend]
    rfl
  | cons e rest' ih =>
    intro s prevT h0 x0 hst hnid hch hend
    obtain ⟨h1, h2, h3⟩ := hch
    show (run env s ((e.1, Event.onContentChanged e.2.1 e.2.2) :: burst rest') endTime).attempts = _
    rw [run]
    have hstep : step env s (e.1, Event.onContentChanged e.2.1 e.2.2) =
        { state := handleEvent s e.1 (Event.onContentChanged e.2.1 e.2.2)
          attempts := []
          upserts := [] } := by
      unfold step
      rw [fireDue_not_due env s e.1 _ hst (by
        intro hle
        exact absurd h2 (Nat.not_lt_of_le hle))]
    rw [hstep]
    dsimp only
    have hst' : (handleEvent s e.1 (Event.onContentChanged e.2.1 e.2.2)).saveTimeout =
        some { fireAt := e.1 + debounceMs, noteId := nid, content := e.2.1, plainText := e.2.2 } := by
      dsimp only [handleEvent, handleAutoSave]
      rw [hnid]
    have hnid' : (handleEvent s e.1 (Event.onContentChanged e.2.1 e.2.2)).noteId = nid := hnid
    have hlast : ((e :: rest').getLastD (prevT, h0, x0)) = rest'.getLastD e := by
      rw [List.getLastD_cons]
    rw [hlast] at hend
    have := ih (handleEvent s e.1 (Event.onContentChanged e.2.1 e.2.2)) e.1 e.2.1 e.2.2
      hst' hnid' h3 (by
        have : rest'.getLastD (e.1, e.2.1, e.2.2) = rest'.getLastD e := rfl
        rw [this]
        exact hend)
    rw [hlast]
    have hsame : rest'.getLastD (e.1, e.2.1, e.2.2) = rest'.getLastD e := rfl
    rw [hsame] at this
    rw [this]
    rfl

/-- C2: debounce coalescing — for a burst of N ≥ 1 content-change events,
each arriving strictly less than the debounce window after the previous
one, starting with no pending timer, exactly one commit attempt is made
once the window elapses after the last event, and it carries the last
event's payload. -/
theorem debounce_coalescing (env : Nat → Except Unit NoteData) (s : EditorState)
    (e0 : Nat × Str × Str) (rest : List (Nat × Str × Str)) (endTime : Nat)
    (hT : s.saveTimeout = none) (hch : chainOk e0.1 rest)
    (hend : (rest.getLastD e0).1 + debounceMs ≤ endTime) :
    (run env s (burst (e0 :: rest)) endTime).attempts =
      [{ fireAt := (rest.getLastD e0).1 + debounceMs
         noteId := s.noteId
         content := (rest.getLastD e0).2.1
         plainText := (rest.getLastD e0).2.2 }] := by
  show (run env s ((e0.1, Event.onContentChanged e0.2.1 e0.2.2) :: burst rest) endTime).attempts = _
  rw [run]
  have hstep : step env s (e0.1, Event.onContentChanged e0.2.1 e0.2.2) =
      { state := handleEvent s e0.1 (Event.onContentChanged e0.2.1 e0.2.2)
        attempts := []
        upserts := [] } := by
    unfold step
    rw [fireDue_none env s e0.1 hT]
  rw [hstep]
  dsimp only
  have hst' : (handleEvent s e0.1 (Event.onContentChanged e0.2.1 e0.2.2)).saveTimeout =
      some { fireAt := e0.1 + debounceMs, noteId := s.noteId,
             content := e0.2.1, plainText := e0.2.2 } := rfl
  have := burst_run env endTime s.noteId rest
    (handleEvent s e0.1 (Event.onContentChanged e0.2.1 e0.2.2)) e0.1 e0.2.1 e0.2.2
    hst' rfl hch (by
      have hsame : rest.getLastD (e0.1, e0.2.1, e0.2.2) = rest.getLastD e0 := rfl
      rw [hsame]
      exact hend)
  have hsame : rest.getLastD (e0.1, e0.2.1, e0.2.2) = rest.getLastD e0 := rfl
  rw [hsame] at this
  rw [this]
  rfl

/-- C6: title-edit persistence — every `onTitleEdited` event, for every
title including the empty, whitespace-only, and sentinel ones, updates the
explicit title and schedules the same debounced commit as a content change,
capturing the editing surface's current content; once the window elapses
(with a note selected and non-blank content) exactly one upsert is issued,
durably saving the edit: the new title verbatim, or the derived fallback
when the new title is empty, blank, or the sentinel. -/
theorem title_edit_persistence (env : Nat → Except Unit NoteData) (s : EditorState)
    (t endTime : Nat) (title a : Str)
    (hT : s.saveTimeout = none) (hid : s.noteId = some a) (ha : a ≠ [])
    (htext : jsTrim s.editorText ≠ []) (hend : t + debounceMs ≤ endTime) :
    (handleEvent s t (Event.onTitleEdited title)).editableTitle = title ∧
    (handleEvent s t (Event.onTitleEdited title)).saveTimeout =
      some { fireAt := t + debounceMs, noteId := some a,
             content := s.editorHtml, plainText := s.editorText } ∧
    (run env s [(t, Event.onTitleEdited title)] endTime).upserts =
      [{ id := a
         user_id := s.userId
         title := if title = [] ∨ jsTrim title = [] ∨ title = untitled
                  then generateTitle s.editorText else title
         content := s.editorHtml
         plain_text := s.editorText
         updated_at := t + debounceMs }] := by
  refine ⟨rfl, ?_, ?_⟩
  · dsimp only [handleEvent, handleAutoSave]
    rw [hid]
  · rw [run_singleton]
    rw [fireDue_none env s t hT]
    dsimp only
    have hst' : (handleEvent s t (Event.onTitleEdited title)).saveTimeout =
        some { fireAt := t + debounceMs, noteId := s.noteId,
               content := s.editorHtml, plainText := s.editorText } := rfl
    rw [fireDue_due env _ endTime _ hst' hend]
    dsimp only
    rw [saveNote_upsert_eq _ _ _ _ _ _ (by rw [hid]; exact ha) htext]
    rw [hid]
    rfl

/-- Example upsert row as issued at time 7 for note "a". -/
def exRow7 : NoteData :=
  { id := 'a' :: []
    user_id := 'u' :: []
    title := "Hi".data
    content := "<p>Hi</p>".data
    plain_text := "Hi".data
    updated_at := 7 }

/-- Example upsert row as issued when `exTimer` fires. -/
def exRowA : NoteData :=
  { id := 'a' :: []
    user_id := 'u' :: []
    title := "Hi".data
    content := "<p>Hi</p>".data
    plain_text := "Hi".data
    updated_at := debounceMs }

/-- Example component state whose editing surface holds content "Hi". -/
def exEditingState : EditorState :=
  { initState (some ('a' :: [])) ('u' :: []) with
      editorHtml := "<p>Hi</p>".data
      editorText := "Hi".data }

/-- Witness for `content_purity` at a concrete commit. -/
theorem content_purity_witness :
    exRow7.content = "<p>Hi</p>".data ∧ exRow7.plain_text = "Hi".data :=
  content_purity.1 (initState (some ('a' :: [])) ('u' :: [])) (some ('a' :: []))
    "<p>Hi</p>".data "Hi".data 7 (Except.error ()) exRow7 (by decide)

/-- Witness for `debounce_coalescing` on a three-event burst at t = 0, 100,
300 ms: one commit attempt at t = 2300 with the third payload. -/
theorem debounce_coalescing_witness :
    (run envFail (initState (some ('a' :: [])) ('u' :: []))
        (burst [(0, "h1".data, "t1".data), (100, "h2".data, "t2".data),
          (300, "h3".data, "t3".data)]) 2300).attempts =
      [{ fireAt := 2300
         noteId := some ('a' :: [])
         content := "h3".data
         plainText := "t3".data }] :=
  debounce_coalescing envFail (initState (some ('a' :: [])) ('u' :: []))
    (0, "h1".data, "t1".data) [(100, "h2".data, "t2".data), (300, "h3".data, "t3".data)] 2300
    rfl ⟨by decide, by decide, by decide, by decide, trivial⟩ (by decide)

/-- Witness for `commit_gating`: clearing the note issues zero upserts. -/
theorem commit_gating_witness :
    (run envFail (initState (some ('a' :: [])) ('u' :: []))
        [(0, Event.onContentChanged [] [])] (0 + debounceMs)).upserts = [] :=
  commit_gating.2 envFail (initState (some ('a' :: [])) ('u' :: [])) 0 rfl

/-- Example component state whose explicit title is "My Notes". -/
def exMyNotesState : EditorState :=
  { initState (some ('a' :: [])) ('u' :: []) with editableTitle := "My Notes".data }

/-- Example upsert row carrying the explicit title "My Notes". -/
def exMyNotesRow : NoteData :=
  { id := 'a' :: []
    user_id := 'u' :: []
    title := "My Notes".data
    content := "<p>Hello</p>".data
    plain_text := "Hello".data
    updated_at := 7 }

/-- Witness for `title_precedence`: explicit title "My Notes" with
non-empty plain text commits "My Notes" verbatim. -/
theorem title_precedence_witness :
    exMyNotesRow.title = "My Notes".data :=
  (title_precedence exMyNotesState (some ('a' :: [])) "<p>Hello</p>".data "Hello".data 7
      (Except.error ()) exMyNotesRow (by decide)).2 ⟨by decide, by decide⟩

/-- Witness for `title_edit_persistence` at a concrete title edit with the
empty title: the state updates, the commit is scheduled, and the upsert
carries the derived fallback title. -/
theorem title_edit_persistence_witness :
    (handleEvent exEditingState 5 (Event.onTitleEdited [])).editableTitle = [] ∧
    (handleEvent exEditingState 5 (Event.onTitleEdited [])).saveTimeout =
      some { fireAt := 5 + debounceMs
             noteId := some ('a' :: [])
             content := "<p>Hi</p>".data
             plainText := "Hi".data } ∧
    (run envFail exEditingState [(5, Event.onTitleEdited [])] 2400).upserts =
      [{ id := 'a' :: []
         user_id := 'u' :: []
         title := "Hi".data
         content := "<p>Hi</p>".data
         plain_text := "Hi".data
         updated_at := 5 + debounceMs }] :=
  title_edit_persistence envFail exEditingState 5 2400 [] ('a' :: [])
    rfl rfl (by decide) (by decide) (by decide)

/-- Witness for `note_switch_no_cancel` at a concrete switch. -/
theorem note_switch_no_cancel_witness :
    (run envFail exPendingState [(500, Event.onActiveNoteChanged (some ('b' :: [])) none)]
        2500).attempts = [exTimer] :=
  note_switch_no_cancel envFail exPendingState exTimer (some ('b' :: [])) none 500 2500
    rfl (by decide) (by decide)

/-- Witness for `no_cross_note_commit`: the only upsert issued after the
switch to "b" is keyed by "a". -/
theorem no_cross_note_commit_witness :
    exRowA.id = 'a' :: [] ∧ exRowA.id ≠ 'b' :: [] :=
  no_cross_note_commit envFail exPendingState exTimer ('a' :: []) ('b' :: []) 1000 3000 none
    rfl rfl (by decide) exRowA (by decide)

/-- Witness for `failure_atomicity` at a concrete failing commit. -/
theorem failure_atomicity_witness :
    (fireDue envFail exPendingState 2500).state.lastSaved = exPendingState.lastSaved ∧
    (fireDue envFail exPendingState 2500).state.note = exPendingState.note ∧
    (fireDue envFail exPendingState 2500).state.saveTimeout = none ∧
    (fireDue envFail exPendingState 2500).attempts = [exTimer] :=
  failure_atomicity envFail exPendingState 2500 exTimer rfl (by decide) rfl

/-- Witness for `upsert_title_nonblank` at a concrete commit. -/
theorem upsert_title_nonblank_witness :
    jsTrim exRow7.title ≠ [] :=
  upsert_title_nonblank (initState (some ('a' :: [])) ('u' :: [])) (some ('a' :: []))
    "<p>Hi</p>".data "Hi".data 7 (Except.error ()) exRow7 (by decide)

end NoteApp
